import Mathlib

/-!
Shallow embedding of the LoRa counter node (src/esp32-s3/src/main.rs).

The program keeps a shared u32 counter, broadcasts it over LoRa as the ASCII
frame "Count: <decimal>", applies decoded remote frames to the counter, and
serves HTTP handlers /add and /sub that mutate the counter, refresh the OLED
display and transmit the new value.  Strings and wire payloads are modelled
as lists of byte values (the relevant content is pure ASCII); u32 arithmetic
is modelled as Nat arithmetic modulo 2^32 (release-build wrapping semantics).
-/

namespace LoraV3

/-- 2^32, the modulus of u32 arithmetic. -/
def U32MOD : Nat := 4294967296

/-- ASCII byte values of a string literal, used to write wire payloads and
HTTP response bodies in readable form. -/
def str2bytes (s : String) : List Nat :=
  s.data.map (fun c => c.toNat)

/-! ## WireCodec: 'format!("Count: \x7b\x7d", v)' and 'msg.parse::<u32>()' -/

/-- Bytes of the ASCII tag "Count: " that every wire frame starts with
(main.rs line 264 produces it, line 208 checks it). -/
def countTag : List Nat := str2bytes "Count: "

/-- Decimal digit bytes of a natural number, fuelled helper: least significant
digit last, as Rust's Display for u32 prints it. -/
def natDigitsAux : Nat → Nat → List Nat
  | 0, _ => []
  | fuel + 1, n =>
    if n < 10 then [48 + n]
    else natDigitsAux fuel (n / 10) ++ [48 + n % 10]

/-- Decimal digit bytes of a natural number, e.g. 'natDigits 42 = [52, 50]'
(ASCII "42"); the model of Rust's 'format!("\x7b\x7d", v)' for 'v : u32'. -/
def natDigits (n : Nat) : List Nat := natDigitsAux (n + 1) n

/-- Model of the digit-consuming loop of Rust's 'u32::from_str': starting from
accumulator 'acc', consume decimal digit bytes, multiplying by 10 and adding,
failing on a non-digit byte or on u32 overflow. -/
def parseDigitsFrom (acc : Nat) : List Nat → Option Nat
  | [] => some acc
  | b :: bs =>
    if 48 ≤ b ∧ b ≤ 57 then
      if acc * 10 + (b - 48) < U32MOD then parseDigitsFrom (acc * 10 + (b - 48)) bs
      else none
    else none

/-- Model of Rust's '"...".parse::<u32>()' on ASCII bytes: an optional leading
'+' (byte 43), then at least one decimal digit, no overflow past u32. -/
def parseU32 : List Nat → Option Nat
  | [] => none
  | b :: bs =>
    if b = 43 then
      match bs with
      | [] => none
      | _ :: _ => parseDigitsFrom 0 bs
    else
      parseDigitsFrom 0 (b :: bs)

/-- The inbound decode path of main.rs lines 208-209: check the "Count: "
text tag, then parse the remaining bytes as a u32. -/
def decode (msg : List Nat) : Option Nat :=
  if countTag.isPrefixOf msg then parseU32 (msg.drop 7) else none

/-- The outbound encode path of main.rs line 264: the ASCII frame
"Count: <decimal v>". -/
def encode (v : Nat) : List Nat := countTag ++ natDigits v

/-! ## CounterStore, DisplaySink and RadioTransceiver effects -/

/-- One frame handed to the transceiver (main.rs lines 267-279): the payload
bytes written with 'write_buffer', the payload length programmed into the
packet params ('buffer.len() as u8', a mod-256 cast), and the transmit
timeout in milliseconds ('RxTxTimeout::from_ms(2000)'). -/
structure TxFrame where
  payload : List Nat
  payloadLen : Nat
  timeoutMs : Nat
deriving DecidableEq

/-- Observable state of the node: the shared counter ('Arc<Mutex<u32>>' of
main.rs line 185), the log of values drawn to the display ('draw_count' +
'flush' calls, newest last), and the log of frames handed to the
transceiver, newest last. -/
structure SysState where
  count : Nat
  refreshes : List Nat
  txs : List TxFrame
deriving DecidableEq

/-- The counter-mutating part of one LoRa receiver-thread iteration
(main.rs lines 206-218).  The argument is the result of
'std::str::from_utf8(&buffer)': 'none' models invalid UTF-8 ('Err'),
'some msg' the decoded text bytes.  On a frame that decodes, the counter is
overwritten and the display redrawn; otherwise nothing changes. -/
def rxStep (utf8Res : Option (List Nat)) (st : SysState) : SysState :=
  match utf8Res with
  | none => st
  | some msg =>
    match decode msg with
    | none => st
    | some v => { count := v, refreshes := st.refreshes ++ [v], txs := st.txs }

/-- The POST /add handler (main.rs lines 252-289): increment the counter
(u32 wrapping semantics), redraw the display, hand the encoded frame to the
transceiver, and return the HTTP body "Added. New count: <n>". -/
def addHandler (st : SysState) : SysState × List Nat :=
  let c := (st.count + 1) % U32MOD
  let msg := encode c
  (⟨c, st.refreshes ++ [c], st.txs ++ [⟨msg, msg.length % 256, 2000⟩]⟩,
    str2bytes "Added. New count: " ++ natDigits c)

/-- The POST /sub handler (main.rs lines 295-332): decrement the counter
(u32 wrapping semantics, so 0 - 1 wraps to 2^32 - 1), redraw the display,
hand the encoded frame to the transceiver, and return the HTTP body
"Added. New count: <n>" (the source reuses the /add body text). -/
def subHandler (st : SysState) : SysState × List Nat :=
  let c := (st.count + (U32MOD - 1)) % U32MOD
  let msg := encode c
  (⟨c, st.refreshes ++ [c], st.txs ++ [⟨msg, msg.length % 256, 2000⟩]⟩,
    str2bytes "Added. New count: " ++ natDigits c)

/-! ## Radio mode / interrupt handling of the receiver loop -/

/-- Transceiver mode as the spec names it. -/
inductive Mode where
  | idle
  | receiving
  | transmitting
deriving DecidableEq

/-- The two interrupt flags the receiver loop inspects ('status.rx_done()'
and 'status.tx_done()', main.rs lines 200 and 225). -/
structure IrqFlags where
  rx_done : Bool
  tx_done : Bool
deriving DecidableEq

/-- Mode and pending-interrupt state of the SX126x transceiver as the
receiver loop sees it. -/
structure Transceiver where
  mode : Mode
  irq : IrqFlags
deriving DecidableEq

/-- The radio-facing part of one receiver-loop iteration (main.rs lines
199-228): read the interrupt status once; if RxDone is set, handle the
packet and clear the RxDone flag (line 222); if TxDone is set, clear the
TxDone flag (line 226) and re-arm continuous receive ('set_rx', line 227). -/
def pollStep (r : Transceiver) : Transceiver :=
  let status := r.irq
  let r1 := if status.rx_done then { r with irq := { r.irq with rx_done := false } } else r
  if status.tx_done then { r1 with irq := { r1.irq with tx_done := false }, mode := Mode.receiving }
  else r1

/-! ## Lock acquisition orders of the two concurrent paths -/

/-- The three shared 'Arc<Mutex<_>>' resources of main.rs lines 185-187. -/
inductive LockId where
  | counterStore
  | radioTransceiver
  | displaySink
deriving DecidableEq

/-- A lock acquisition or release event. -/
inductive LockEvt where
  | acq (l : LockId)
  | rel (l : LockId)
deriving DecidableEq

/-- Lock events of one receiver-thread iteration that receives a valid
frame (main.rs lines 198-230): 'lora_rx.lock()' held for the whole body,
'counter_rx.lock()' nested inside it, 'display_rx.lock()' nested inside
that. -/
def inboundEvents : List LockEvt :=
  [.acq .radioTransceiver, .acq .counterStore, .acq .displaySink,
   .rel .displaySink, .rel .counterStore, .rel .radioTransceiver]

/-- Lock events of one POST /add request (main.rs lines 252-290): the
counter guard lives to the end of the handler; the display lock is taken
and dropped (lines 257-260); then the radio lock is taken (line 263) while
the counter guard is still held. -/
def addEvents : List LockEvt :=
  [.acq .counterStore, .acq .displaySink, .rel .displaySink,
   .acq .radioTransceiver, .rel .radioTransceiver, .rel .counterStore]

/-- All (held, acquired) pairs of an event trace: lock 'held' is held at the
moment lock 'acquired' is requested. -/
def heldPairsAux (held : List LockId) : List LockEvt → List (LockId × LockId)
  | [] => []
  | .acq l :: rest => held.map (fun h => (h, l)) ++ heldPairsAux (held ++ [l]) rest
  | .rel l :: rest => heldPairsAux (held.erase l) rest

/-- The held-while-acquiring relation of a trace, starting with no locks. -/
def heldPairs (evts : List LockEvt) : List (LockId × LockId) :=
  heldPairsAux [] evts

/-! ## Lemmas about the codec -/

lemma natDigitsAux_mono (n : Nat) :
    ∀ f g, n < f → n < g → natDigitsAux f n = natDigitsAux g n := by
  induction n using Nat.strong_induction_on with
  | _ n ih =>
    intro f g hf hg
    cases f with
    | zero => omega
    | succ f =>
      cases g with
      | zero => omega
      | succ g =>
        simp only [natDigitsAux]
        by_cases h10 : n < 10
        · simp [h10]
        · have hlt : n / 10 < n := Nat.div_lt_self (by omega) (by omega)
          rw [if_neg h10, if_neg h10, ih (n / 10) hlt f g (by omega) (by omega)]

lemma natDigits_expand (n : Nat) :
    natDigits n = if n < 10 then [48 + n] else natDigits (n / 10) ++ [48 + n % 10] := by
  have h1 : natDigits n
      = if n < 10 then [48 + n] else natDigitsAux n (n / 10) ++ [48 + n % 10] := rfl
  rw [h1]
  by_cases h10 : n < 10
  · rw [if_pos h10, if_pos h10]
  · have hlt : n / 10 < n := Nat.div_lt_self (by omega) (by omega)
    rw [if_neg h10, if_neg h10,
      natDigitsAux_mono (n / 10) n (n / 10 + 1) (by omega) (by omega)]
    rfl

lemma natDigits_head (n : Nat) :
    ∃ c cs, natDigits n = c :: cs ∧ 48 ≤ c ∧ c ≤ 57 := by
  induction n using Nat.strong_induction_on with
  | _ n ih =>
    by_cases h10 : n < 10
    · exact ⟨48 + n, [], by rw [natDigits_expand n, if_pos h10], by omega, by omega⟩
    · have hlt : n / 10 < n := Nat.div_lt_self (by omega) (by omega)
      obtain ⟨c, cs, hc, h1, h2⟩ := ih (n / 10) hlt
      exact ⟨c, cs ++ [48 + n % 10],
        by rw [natDigits_expand n, if_neg h10, hc]; rfl, h1, h2⟩

lemma parseDigitsFrom_append (xs ys : List Nat) :
    ∀ acc, parseDigitsFrom acc (xs ++ ys) =
      (parseDigitsFrom acc xs).bind (fun a => parseDigitsFrom a ys) := by
  induction xs with
  | nil => intro acc; simp [parseDigitsFrom]
  | cons b bs ih =>
    intro acc
    simp only [List.cons_append, parseDigitsFrom]
    by_cases hd : 48 ≤ b ∧ b ≤ 57
    · by_cases ho : acc * 10 + (b - 48) < U32MOD
      · simp [hd, ho, ih]
      · simp [hd, ho]
    · simp [hd]

lemma parseDigitsFrom_natDigits (n : Nat) :
    ∀ acc, acc * 10 ^ (natDigits n).length + n < U32MOD →
      parseDigitsFrom acc (natDigits n) = some (acc * 10 ^ (natDigits n).length + n) := by
  induction n using Nat.strong_induction_on with
  | _ n ih =>
    intro acc hacc
    by_cases h10 : n < 10
    · have he : natDigits n = [48 + n] := by rw [natDigits_expand n, if_pos h10]
      rw [he] at hacc ⊢
      simp only [List.length_cons, List.length_nil] at hacc ⊢
      have h01 : (10 : Nat) ^ (0 + 1) = 10 := by norm_num
      rw [h01] at hacc ⊢
      simp only [parseDigitsFrom]
      rw [if_pos (by omega : 48 ≤ 48 + n ∧ 48 + n ≤ 57)]
      have hb : 48 + n - 48 = n := by omega
      rw [hb, if_pos hacc]
    · have hlt : n / 10 < n := Nat.div_lt_self (by omega) (by omega)
      have he : natDigits n = natDigits (n / 10) ++ [48 + n % 10] := by
        rw [natDigits_expand n, if_neg h10]
      have hlen : (natDigits n).length = (natDigits (n / 10)).length + 1 := by
        rw [he, List.length_append, List.length_cons, List.length_nil]
      have hdm : 10 * (n / 10) + n % 10 = n := Nat.div_add_mod n 10
      have hkey : (acc * 10 ^ (natDigits (n / 10)).length + n / 10) * 10 + n % 10
          = acc * 10 ^ ((natDigits (n / 10)).length + 1) + n := by
        rw [pow_succ]
        calc (acc * 10 ^ (natDigits (n / 10)).length + n / 10) * 10 + n % 10
            = acc * (10 ^ (natDigits (n / 10)).length * 10) + (10 * (n / 10) + n % 10) := by
              ring
          _ = acc * (10 ^ (natDigits (n / 10)).length * 10) + n := by rw [hdm]
      rw [hlen] at hacc ⊢
      have hle : acc * 10 ^ (natDigits (n / 10)).length + n / 10
          ≤ acc * 10 ^ ((natDigits (n / 10)).length + 1) + n := by
        rw [← hkey]; omega
      have hIH := ih (n / 10) hlt acc (by omega)
      rw [he, parseDigitsFrom_append, hIH]
      simp only [Option.some_bind, parseDigitsFrom]
      rw [if_pos (by omega : 48 ≤ 48 + n % 10 ∧ 48 + n % 10 ≤ 57)]
      have hb : 48 + n % 10 - 48 = n % 10 := by omega
      rw [hb, hkey, if_pos hacc]

lemma parseDigitsFrom_natDigits0 (n : Nat) (h : n < U32MOD) :
    parseDigitsFrom 0 (natDigits n) = some n := by
  have := parseDigitsFrom_natDigits n 0 (by simpa using h)
  simpa using this

lemma isPrefixOf_append_self (a b : List Nat) : a.isPrefixOf (a ++ b) = true := by
  simp [List.isPrefixOf_iff_prefix]

lemma decode_countTag_append (xs : List Nat) :
    decode (countTag ++ xs) = parseU32 xs := by
  have h7 : (countTag ++ xs).drop 7 = xs := by
    have hlen : countTag.length = 7 := by decide
    rw [← hlen, List.drop_left]
  simp only [decode, isPrefixOf_append_self, if_true, h7]

/-! ## Claim theorems -/

/-- C1: the claim says /sub at counter value 0 is a clamped-at-zero
saturating decrement that never wraps to the maximum representable u32.
The code ('*count -= 1', main.rs line 297) performs plain u32 arithmetic:
under release-build wrapping semantics the counter at 0 becomes
2^32 - 1 = 4294967295, the maximum representable u32 (a debug build would
panic on the same input), so the code violates the claim. -/
theorem sub_at_zero_wraps_to_max :
    (subHandler ⟨0, [], []⟩).1.count = U32MOD - 1 ∧
    0 < (subHandler ⟨0, [], []⟩).1.count := by
  constructor
  · decide
  · decide

/-- C2: the claim says both concurrent paths take the three shared locks in
one globally consistent order.  In the code the receiver thread holds the
radio lock while taking the counter lock (main.rs lines 198-210), while the
/add handler holds the counter lock while taking the radio lock (lines
253-263): both inverted pairs occur, and no ranking of the three locks
orients every held-while-acquiring pair, so a single consistent
acquisition order does not exist and circular wait is possible. -/
theorem lock_order_inconsistent :
    (LockId.radioTransceiver, LockId.counterStore) ∈ heldPairs inboundEvents ∧
    (LockId.counterStore, LockId.radioTransceiver) ∈ heldPairs addEvents ∧
    ¬ ∃ rank : LockId → Nat,
        ∀ p ∈ heldPairs inboundEvents ++ heldPairs addEvents, rank p.1 < rank p.2 := by
  refine ⟨by decide, by decide, ?_⟩
  rintro ⟨rank, hrank⟩
  have h1 := hrank (LockId.radioTransceiver, LockId.counterStore) (by decide)
  have h2 := hrank (LockId.counterStore, LockId.radioTransceiver) (by decide)
  exact Nat.lt_asymm h1 h2

/-- C3: for every representable u32 value v, decoding the encoded wire
frame of v yields some v: decode (encode v) = some v. -/
theorem decode_encode_roundtrip (v : Nat) (hv : v < U32MOD) :
    decode (encode v) = some v := by
  unfold encode
  rw [decode_countTag_append]
  obtain ⟨c, cs, hc, h48, h57⟩ := natDigits_head v
  rw [hc]
  simp only [parseU32]
  rw [if_neg (by omega : ¬c = 43), ← hc]
  exact parseDigitsFrom_natDigits0 v hv

/-- Witness for the round trip at the concrete value 42. -/
theorem decode_encode_roundtrip_witness :
    42 < U32MOD ∧ decode (encode 42) = some 42 :=
  ⟨by decide, decode_encode_roundtrip 42 (by decide)⟩

/-- C4: a received frame that decodes to v overwrites the counter
unconditionally: whatever the previous state, after the receive step the
counter reads v. -/
theorem rx_apply_overwrites (msg : List Nat) (v : Nat) (st : SysState)
    (h : decode msg = some v) :
    (rxStep (some msg) st).count = v := by
  simp [rxStep, h]

/-- Witness for the unconditional overwrite: the frame "Count: 7" applied
to a state holding 3 leaves the counter at 7. -/
theorem rx_apply_overwrites_witness :
    decode (str2bytes "Count: 7") = some 7 ∧
    (rxStep (some (str2bytes "Count: 7")) ⟨3, [], []⟩).count = 7 :=
  ⟨by decide,
    rx_apply_overwrites (str2bytes "Count: 7") 7 ⟨3, [], []⟩ (by decide)⟩

/-- C5: on any received byte sequence that is invalid UTF-8 (the 'none'
argument) or whose text fails the "Count: " tag check or the u32 parse,
decode returns none and the receive step leaves the whole state — counter,
display-refresh log and transmit log — unchanged. -/
theorem rx_malformed_ignored (msg : List Nat) (st : SysState)
    (h : countTag.isPrefixOf msg = false ∨ parseU32 (msg.drop 7) = none) :
    decode msg = none ∧ rxStep (some msg) st = st ∧ rxStep none st = st := by
  have hd : decode msg = none := by
    rcases h with h | h
    · simp [decode, h]
    · by_cases hp : countTag.isPrefixOf msg <;> simp [decode, hp, h]
  exact ⟨hd, by simp [rxStep, hd], rfl⟩

/-- Witness for malformed-input safety: the foreign frame "Battery: 3.7V"
is ignored from the state holding 5. -/
theorem rx_malformed_ignored_witness :
    decode (str2bytes "Battery: 3.7V") = none ∧
    rxStep (some (str2bytes "Battery: 3.7V")) ⟨5, [], []⟩ = ⟨5, [], []⟩ ∧
    rxStep none (⟨5, [], []⟩ : SysState) = ⟨5, [], []⟩ :=
  rx_malformed_ignored (str2bytes "Battery: 3.7V") ⟨5, [], []⟩ (Or.inl (by decide))

/-- C6: whenever the receiver-loop iteration observes tx_done set, it ends
with the TxDone interrupt flag cleared and the transceiver re-armed into
continuous receiving mode, whatever the rest of the transceiver state. -/
theorem txdone_clears_and_rearms (r : Transceiver) (h : r.irq.tx_done = true) :
    (pollStep r).irq.tx_done = false ∧ (pollStep r).mode = Mode.receiving := by
  unfold pollStep
  cases hr : r.irq.rx_done <;> simp [h, hr]

/-- Witness for the TxDone handling at the concrete transceiver state that
just finished a transmission. -/
theorem txdone_clears_and_rearms_witness :
    (pollStep ⟨Mode.transmitting, ⟨false, true⟩⟩).irq.tx_done = false ∧
    (pollStep ⟨Mode.transmitting, ⟨false, true⟩⟩).mode = Mode.receiving :=
  txdone_clears_and_rearms ⟨Mode.transmitting, ⟨false, true⟩⟩ (by decide)

/-- C7: the claim says /add adds 1 saturating at the maximum representable
u32.  The code ('*count += 1', main.rs line 254) performs plain u32
arithmetic: under release-build wrapping semantics the counter at
2^32 - 1 becomes 0 instead of staying at the maximum (a debug build would
panic on the same input), so the code violates the claim. -/
theorem add_at_max_wraps_to_zero :
    (addHandler ⟨U32MOD - 1, [], []⟩).1.count = 0 ∧
    (addHandler ⟨U32MOD - 1, [], []⟩).1.count < U32MOD - 1 := by
  constructor
  · decide
  · decide

/-- C8: from counter value 0, one /add call sets the counter to 1,
refreshes the display with 1, and hands the transceiver exactly one frame
"Count: 1" whose programmed payload length 8 equals the encoded length,
with a 2000 ms transmit timeout. -/
theorem add_from_zero_transmits_count1 :
    (addHandler ⟨0, [], []⟩).1.count = 1 ∧
    (addHandler ⟨0, [], []⟩).1.refreshes = [1] ∧
    (addHandler ⟨0, [], []⟩).1.txs = [⟨str2bytes "Count: 1", 8, 2000⟩] ∧
    (str2bytes "Count: 1").length = 8 := by
  refine ⟨by decide, by decide, by decide, by decide⟩

/-- C9: for every starting state, /add and /sub each answer the HTTP
caller with a body ending in the decimal text of the post-mutation counter
value (the /sub body reuses the "Added. New count: " text of /add). -/
theorem handlers_return_new_value_as_text (st : SysState) :
    (addHandler st).2 = str2bytes "Added. New count: " ++ natDigits ((addHandler st).1.count) ∧
    (addHandler st).1.count = (st.count + 1) % U32MOD ∧
    (subHandler st).2 = str2bytes "Added. New count: " ++ natDigits ((subHandler st).1.count) ∧
    (subHandler st).1.count = (st.count + (U32MOD - 1)) % U32MOD :=
  ⟨rfl, rfl, rfl, rfl⟩

/-- C10: decode accepts the non-canonical frame "Count: +0042" (leading
'+' and leading zeros) and yields 42, while every encoded frame has a
decimal digit byte (48..57) at position 7, never the '+' byte 43 that this
frame has there — so decode's accepted language is strictly larger than
encode's image. -/
theorem decode_accepts_noncanonical :
    decode (str2bytes "Count: +0042") = some 42 ∧
    (str2bytes "Count: +0042").getD 7 0 = 43 ∧
    ∀ v : Nat, 48 ≤ (encode v).getD 7 0 ∧ (encode v).getD 7 0 ≤ 57 := by
  refine ⟨by decide, by decide, ?_⟩
  intro v
  obtain ⟨c, cs, hc, h48, h57⟩ := natDigits_head v
  have he : (encode v).getD 7 0 = c := by
    unfold encode
    rw [hc]
    rfl
  rw [he]
  exact ⟨h48, h57⟩

end LoraV3
